import Mathlib

/-!
Shallow embedding of the netviz event-ingestion and analysis pipeline
(src/server/connection_handler.py, src/server/threat_detector.py,
src/server/websocket_handler.py).

Modelling conventions:
* Wall-clock times from time.time() are rationals; the kernel timestamp
  field (`timestamp`, nanoseconds) is a natural number.
* Python dicts are association lists with in-place overwrite (first
  occurrence) and append-on-new-key, which also models dict insertion
  order; defaultdicts read with a default value.
* collections.deque with maxlen is a list truncated from the left on
  append past capacity.
* psutil lookups are an explicit input (`ProcLookup`), one of the three
  outcome classes of the source's try/except.
* The floating-point mean-of-z-scores inside _ml_anomaly_detection uses
  numpy sqrt and is supplied as a rational parameter `z`; everything the
  detector does with it (warm-up, min(1, z/3), the 0.7 training gate, the
  sample-list truncation) is embedded from the source.
* datetime.now().hour and .weekday() are the parameters `hour`, `wday`.
-/

/-- Python dict lookup: first binding of the key, if any. -/
def alist_get {α β : Type} [DecidableEq α] : List (α × β) → α → Option β
  | [], _ => none
  | (k1, v1) :: t, k => if k1 = k then some v1 else alist_get t k

/-- Python dict assignment: overwrite in place, else append (insertion order kept). -/
def alist_set {α β : Type} [DecidableEq α] : List (α × β) → α → β → List (α × β)
  | [], k, v => [(k, v)]
  | (k1, v1) :: t, k, v => if k1 = k then (k, v) :: t else (k1, v1) :: alist_set t k v

/-- Mutation of the value object stored under a key, visible only while the key
is still in the dict (models Python object identity after a possible `del`). -/
def alist_update {α β : Type} [DecidableEq α] (m : List (α × β)) (k : α) (f : β → β) :
    List (α × β) :=
  m.map (fun p => if p.1 = k then (k, f p.2) else p)

/-- collections.deque(maxlen := M): append right, drop from the left past capacity. -/
def dequeAppend {α : Type} (M : ℕ) (l : List α) (a : α) : List α :=
  let l1 := l ++ [a]
  if M < l1.length then l1.drop (l1.length - M) else l1

/-- Python `pat in s` on strings (substring containment), as a Boolean. -/
def substrB (pat s : String) : Bool :=
  s.data.tails.any (fun t => pat.data.isPrefixOf t)

/-- Python str.lower(): per-character lowercasing of the underlying chars
(String.toLower is definitionally opaque; this is its by-char equivalent). -/
def strToLower (s : String) : String := ⟨s.data.map Char.toLower⟩

/-- Python s.startswith(pre), on the underlying character lists. -/
def strStartsWith (pre s : String) : Bool := pre.data.isPrefixOf s.data

/-- max() of a list of naturals, 0 on empty (the source guards emptiness). -/
def listMax (l : List ℕ) : ℕ := l.foldr max 0

/-- One step of a stable descending insertion: the new element goes after every
element whose key is ≥ its own, as Python's stable sort places later elements. -/
def insertByKeyDesc {α : Type} (key : α → ℕ) (a : α) : List α → List α
  | [] => [a]
  | b :: t => if key b < key a then a :: b :: t else b :: insertByKeyDesc key a t

/-- Python sorted(l, key, reverse := True): stable, descending by a natural key. -/
def pySortedDesc {α : Type} (key : α → ℕ) (l : List α) : List α :=
  l.foldl (fun acc x => insertByKeyDesc key x acc) []

/-- Python sorted ascending by a natural key (list.sort in the port-scan rule). -/
def insertByKeyAsc {α : Type} (key : α → ℕ) (a : α) : List α → List α
  | [] => [a]
  | b :: t => if key a < key b then a :: b :: t else b :: insertByKeyAsc key a t

def pySortedAsc {α : Type} (key : α → ℕ) (l : List α) : List α :=
  l.foldl (fun acc x => insertByKeyAsc key x acc) []

/-- RawEvent as decoded from the perf buffer (ebpf_loader.py): keys
timestamp, pid, comm, cmdline, saddr, daddr, sport, dport, protocol. -/
structure RawEvent where
  timestamp : ℕ
  pid : ℕ
  comm : String
  cmdline : String
  saddr : ℕ
  daddr : ℕ
  sport : ℕ
  dport : ℕ
  protocol : ℕ
deriving DecidableEq, Repr

/-- The three outcome classes of the psutil.Process lookup in
enrich_connection_event. -/
inductive ProcLookup where
  | found (name cmdline_full exe_path : String) (ppid : ℕ)
      (username : String) (create_time : ℚ) (status : String)
  | noSuchProcess
  | accessDenied
deriving DecidableEq, Repr

/-- EnrichedEvent: the raw event plus the fields added by
enrich_connection_event; threat_score / is_suspicious stay absent (none)
until the scoring step of process_connection_event assigns them. -/
structure EnrichedEvent where
  raw : RawEvent
  src_ip : String
  dst_ip : String
  protocol_str : String
  process_name : String
  cmdline_full : String
  exe_path : String
  parent_pid : ℕ
  username : String
  create_time : ℚ
  status : String
  country_code : String
  is_private : Bool
  is_safe_port : Bool
  threat_score : Option ℤ := none
  is_suspicious : Option Bool := none
deriving DecidableEq, Repr

/-- connection_handler.py line 45: the handler's safe_ports set literal.
The literal lists 995 twice and does not contain 9418. -/
def handler_safe_ports : List ℕ :=
  [80, 443, 22, 53, 25, 587, 993, 995, 21, 110, 143, 995, 8080, 8443]

/-- threat_detector.py line 20: the detector's own safe_ports set literal. -/
def detector_safe_ports : List ℕ :=
  [80, 443, 22, 53, 25, 587, 993, 995, 21, 110, 143, 8080, 8443, 9418]

/-- SafePorts as the specification states it (spec section 4.4): used to compare
the two code literals against the specified whitelist. -/
def spec_SafePorts : List ℕ :=
  [80, 443, 22, 53, 25, 587, 993, 995, 21, 110, 143, 8080, 8443, 9418]

/-- format_ip: dotted-quad rendering of a u32 (socket.inet_ntoa of the
big-endian packing). -/
def format_ip (n : ℕ) : String :=
  toString ((n / 16777216) % 256) ++ "." ++ toString ((n / 65536) % 256) ++ "." ++
    toString ((n / 256) % 256) ++ "." ++ toString (n % 256)

/-- is_private_ip: the four inclusive numeric ranges of the source
(10/8, 172.16/12, 192.168/16, 127/8), compared on the integer address. -/
def is_private_ip (ip : ℕ) : Bool :=
  (167772160 ≤ ip && ip ≤ 184549375) ||
  (2886729728 ≤ ip && ip ≤ 2887778303) ||
  (3232235520 ≤ ip && ip ≤ 3232301055) ||
  (2130706432 ≤ ip && ip ≤ 2147483647)

/-- enrich_connection_event: copies the raw event and adds string forms,
process metadata (three psutil outcome classes), and the derived flags.
It never sets threat_score or is_suspicious. -/
def enrich_connection_event (lookup : ProcLookup) (ev : RawEvent) : EnrichedEvent :=
  let base : EnrichedEvent :=
    { raw := ev
      src_ip := format_ip ev.saddr
      dst_ip := format_ip ev.daddr
      protocol_str := if ev.protocol = 6 then "TCP" else "Protocol-" ++ toString ev.protocol
      process_name := ""
      cmdline_full := ""
      exe_path := ""
      parent_pid := 0
      username := ""
      create_time := 0
      status := ""
      country_code := "Unknown"
      is_private := is_private_ip ev.daddr
      is_safe_port := decide (ev.dport ∈ handler_safe_ports) }
  match lookup with
  | .found name cmdline exe ppid user ct st =>
      { base with process_name := name, cmdline_full := cmdline, exe_path := exe,
                  parent_pid := ppid, username := user, create_time := ct, status := st }
  | .noSuchProcess =>
      { base with process_name := "[terminated_pid:" ++ toString ev.pid ++ "]",
                  cmdline_full := ev.cmdline, exe_path := "Unknown", parent_pid := 0,
                  username := "Unknown", create_time := 0, status := "terminated" }
  | .accessDenied =>
      { base with process_name := ev.comm,
                  cmdline_full := ev.cmdline, exe_path := "Unknown", parent_pid := 0,
                  username := "Restricted", create_time := 0, status := "restricted" }

/-- One entry of the per-pid connection history deque of the detector. -/
structure HistEntry where
  timestamp : ℚ
  dst_ip : String
  dst_port : ℕ
deriving DecidableEq, Repr

/-- Mutable state of threat_detector.ThreatDetector. -/
structure ThreatDetector where
  ip_frequency : List (String × ℕ)
  process_connection_history : List (ℕ × List HistEntry)
  process_first_connection : Finset ℕ
  total_analyzed : ℕ
  suspicious_detected : ℕ
  connection_features : List (List ℚ)
deriving DecidableEq

def ThreatDetector.init : ThreatDetector :=
  { ip_frequency := [], process_connection_history := [], process_first_connection := ∅,
    total_analyzed := 0, suspicious_detected := 0, connection_features := [] }

def common_dns_servers : List String :=
  ["8.8.8.8", "8.8.4.4", "1.1.1.1", "1.0.0.1", "208.67.222.222", "9.9.9.9", "149.112.112.112"]

def suspicious_ports : List ℕ := [1337, 31337, 4444, 5555, 6667, 12345, 54321]

def system_processes : List String := ["systemd", "kernel", "init", "kthreadd"]

def suspicious_names : List String := ["nc", "ncat", "netcat", "python", "perl", "bash", "sh"]

def suspicious_args : List String := ["-e", "--execute", "/bin/sh", "/bin/bash", "reverse", "shell"]

/-- The detector's per-pid history deque (defaultdict of deque(maxlen 100)). -/
def histOf (st : ThreatDetector) (pid : ℕ) : List HistEntry :=
  (alist_get st.process_connection_history pid).getD []

/-- Rule 1, _check_destination_rarity: reads the already-incremented
ip_frequency and total_analyzed. -/
def check_destination_rarity (st : ThreatDetector) (e : EnrichedEvent) : ℕ :=
  if e.dst_ip = "" then 0
  else if e.dst_ip ∈ common_dns_servers then 0
  else
    let total := st.total_analyzed
    let ip_count := (alist_get st.ip_frequency e.dst_ip).getD 0
    if total < 10 then 0
    else
      let f : ℚ := (ip_count : ℚ) / (total : ℚ)
      if f < 1/1000 then 20 else if f < 5/1000 then 10 else if f < 1/100 then 5 else 0

/-- Per-destination count inside a recent-connection window. -/
def countDst (l : List HistEntry) (ip : String) : ℕ :=
  l.countP (fun c => c.dst_ip == ip)

/-- max(dst_counts.values()) over a window: the largest multiplicity of any
destination appearing in the window (0 on empty, which the source guards). -/
def maxDstCount (l : List HistEntry) : ℕ :=
  listMax (l.map (fun c => countDst l c.dst_ip))

/-- Rule 2 body over the already-filtered 60 s window. -/
def rule2_of_recent (recent : List HistEntry) : ℕ :=
  let rate := recent.length
  let base : ℕ :=
    if 100 < rate then 25 else if 50 < rate then 15
    else if 20 < rate then 10 else if 10 < rate then 5 else 0
  let bonus : ℕ := if 3 ≤ recent.length ∧ 20 < maxDstCount recent then 15 else 0
  base + bonus

/-- Rule 2, _check_connection_frequency: count of this pid's history entries
from the last 60 seconds, plus the same-destination burst bonus. -/
def check_connection_frequency (hist : List HistEntry) (now : ℚ) : ℕ :=
  rule2_of_recent (hist.filter (fun c => decide (now - c.timestamp ≤ 60)))

/-- Rule 3, _check_suspicious_ports (the three penalties stack). -/
def check_suspicious_ports (e : EnrichedEvent) : ℕ :=
  (if e.raw.dport ∈ suspicious_ports then 30 else 0) +
  (if 49152 < e.raw.dport ∧ e.raw.dport ∉ detector_safe_ports then 10 else 0) +
  (if e.raw.dport ∉ detector_safe_ports ∧ e.raw.dport < 1024 then 15 else 0)

/-- Rule 4, _check_unusual_timing (hour and weekday from datetime.now()). -/
def check_unusual_timing (e : EnrichedEvent) (hour wday : ℕ) : ℕ :=
  (if 2 ≤ hour ∧ hour ≤ 6 then 10 else 0) +
  (if 5 ≤ wday ∧ e.raw.dport ∉ detector_safe_ports then 5 else 0)

/-- Rule 5, _check_first_time_process: single-fire per pid; also returns the
updated first-connection set. -/
def check_first_time_process (firstSet : Finset ℕ) (e : EnrichedEvent) : ℕ × Finset ℕ :=
  if e.raw.pid ∈ firstSet then (0, firstSet)
  else
    ((if strToLower e.process_name ∈ system_processes then 30 else 15),
     insert e.raw.pid firstSet)

/-- Rule 6, _check_geographic_anomalies: the placeholder private-IP check. -/
def check_geographic_anomalies (e : EnrichedEvent) : ℕ :=
  if e.is_private then 0 else 5

/-- Rule 7, _check_process_anomalies: substring heuristics on the lower-cased
process name, command line and executable path. -/
def check_process_anomalies (e : EnrichedEvent) : ℕ :=
  let pname := strToLower e.process_name
  let cmdline := strToLower e.cmdline_full
  let exe := strToLower e.exe_path
  (if suspicious_names.any (fun n => substrB n pname) then 20 else 0) +
  (if suspicious_args.any (fun a => substrB a cmdline) then 25 else 0) +
  (if substrB "/tmp/" exe || substrB "/var/tmp/" exe then 30 else 0) +
  (if exe ≠ "" ∧ strStartsWith "/." exe then 20 else 0)

/-- Final value of the sequential_count scan of _check_connection_patterns:
the length of the trailing run of consecutive integers in the sorted port
list (the loop resets on every break, so only the last run survives). -/
def seqCountFinal (ports : List ℕ) : ℕ :=
  (ports.foldl
    (fun (acc : ℕ × Option ℕ) p =>
      match acc.2 with
      | none => (1, some p)
      | some prev => (if p = prev + 1 then acc.1 + 1 else 1, some p))
    (1, none)).1

/-- Rule 8, _check_connection_patterns: unique-destination fan-out plus the
sequential-port heuristic over the 30 s window. -/
def check_connection_patterns (st : ThreatDetector) (e : EnrichedEvent) (now : ℚ) : ℕ :=
  let hist := histOf st e.raw.pid
  let uniq := (hist.map (fun c => c.dst_ip)).dedup.length
  let s1 : ℕ := if 50 < uniq then 15 else if 20 < uniq then 10 else if 10 < uniq then 5 else 0
  let recent := hist.filter (fun c => decide (now - c.timestamp ≤ 30))
  let s2 : ℕ :=
    if 5 ≤ recent.length then
      let ports := pySortedAsc id (recent.map (fun c => c.dst_port))
      if 5 ≤ seqCountFinal ports then 20 else 0
    else 0
  s1 + s2

/-- _extract_features: the eight-dimensional feature vector. -/
def extract_features (e : EnrichedEvent) (hour wday : ℕ) : List ℚ :=
  [(e.raw.dport : ℚ) / 65535, (e.raw.sport : ℚ) / 65535,
   (if e.is_private then 1 else 0), (if e.is_safe_port then 1 else 0),
   (e.process_name.length : ℚ) / 50, (e.cmdline_full.length : ℚ) / 200,
   (hour : ℚ) / 24, (wday : ℚ) / 7]

/-- _ml_anomaly_detection. `z` is the floating mean of |(x - mu)/sigma| over the
eight dimensions (numpy, irrational in general), supplied as a parameter;
the warm-up, normalisation, training gate and truncation are from the source. -/
def ml_anomaly_detection (st : ThreatDetector) (e : EnrichedEvent) (hour wday : ℕ)
    (z : ℚ) : ℚ × ThreatDetector :=
  let features := extract_features e hour wday
  if st.connection_features.length < 100 then
    (0, { st with connection_features := st.connection_features ++ [features] })
  else
    let normalized := min 1 (z / 3)
    if normalized < 7/10 then
      let cf := st.connection_features ++ [features]
      let cf := if 10000 < cf.length then cf.drop (cf.length - 5000) else cf
      (normalized, { st with connection_features := cf })
    else (normalized, st)

/-- The state as updated at the top of analyze_connection, before the rules run:
total_analyzed incremented, ip_frequency bumped, history deque appended. -/
def detectorTrack (st : ThreatDetector) (e : EnrichedEvent) (now : ℚ) : ThreatDetector :=
  { st with
      total_analyzed := st.total_analyzed + 1
      ip_frequency :=
        alist_set st.ip_frequency e.dst_ip ((alist_get st.ip_frequency e.dst_ip).getD 0 + 1)
      process_connection_history :=
        alist_set st.process_connection_history e.raw.pid
          (dequeAppend 100 (histOf st e.raw.pid)
            { timestamp := now, dst_ip := e.dst_ip, dst_port := e.raw.dport }) }

/-- Sum of the eight rule contributions of analyze_connection, evaluated over
the tracked state exactly as the source does. -/
def analyze_rule_sum (st : ThreatDetector) (e : EnrichedEvent) (now : ℚ)
    (hour wday : ℕ) : ℕ :=
  let st1 := detectorTrack st e now
  let r1 := check_destination_rarity st1 e
  let r2 := check_connection_frequency (histOf st1 e.raw.pid) now
  let r3 := check_suspicious_ports e
  let r4 := check_unusual_timing e hour wday
  let r5 := (check_first_time_process st1.process_first_connection e).1
  let st2 := { st1 with process_first_connection :=
                 (check_first_time_process st1.process_first_connection e).2 }
  let r6 := check_geographic_anomalies e
  let r7 := check_process_anomalies e
  let r8 := check_connection_patterns st2 e now
  r1 + r2 + r3 + r4 + r5 + r6 + r7 + r8

/-- The anomaly score the combination step receives (the first component of
_ml_anomaly_detection on the state the source passes it). -/
def analyze_ml_score (st : ThreatDetector) (e : EnrichedEvent) (hour wday : ℕ)
    (z : ℚ) : ℚ :=
  (ml_anomaly_detection st e hour wday z).1

/-- analyze_connection: tracking updates, rule ensemble, ML combination,
suspicious-connection counter; returns the integer score and the new state. -/
def analyze_connection (st : ThreatDetector) (e : EnrichedEvent) (now : ℚ)
    (hour wday : ℕ) (z : ℚ) : ℤ × ThreatDetector :=
  let st1 := detectorTrack st e now
  let r1 := check_destination_rarity st1 e
  let r2 := check_connection_frequency (histOf st1 e.raw.pid) now
  let r3 := check_suspicious_ports e
  let r4 := check_unusual_timing e hour wday
  let fp := check_first_time_process st1.process_first_connection e
  let st2 := { st1 with process_first_connection := fp.2 }
  let r6 := check_geographic_anomalies e
  let r7 := check_process_anomalies e
  let r8 := check_connection_patterns st2 e now
  let ruleSum : ℕ := r1 + r2 + r3 + r4 + fp.1 + r6 + r7 + r8
  let mlr := ml_anomaly_detection st2 e hour wday z
  let combined : ℚ := min 100 (max 0 (max (ruleSum : ℚ) (mlr.1 * 50)))
  let score : ℤ := ⌊combined⌋
  let st3 := mlr.2
  let st4 :=
    if 50 ≤ combined then { st3 with suspicious_detected := st3.suspicious_detected + 1 }
    else st3
  (score, st4)

/-- Per-pid statistics record of update_statistics. -/
structure ProcStats where
  name : String
  connection_count : ℕ
  first_seen : ℚ
  last_seen : ℚ
  unique_destinations : Finset ℕ
  suspicious_count : ℕ
deriving DecidableEq

/-- The ConnectionId key: the f-string joins the six decimal components with
underscores, which is injective on the tuple, so the tuple itself is the key. -/
def connId (ev : RawEvent) : ℕ × ℕ × ℕ × ℕ × ℕ × ℕ :=
  (ev.timestamp, ev.pid, ev.saddr, ev.sport, ev.daddr, ev.dport)

abbrev ConnId := ℕ × ℕ × ℕ × ℕ × ℕ × ℕ

/-- Mutable state of connection_handler.ConnectionHandler. -/
structure ConnectionHandler where
  max_connections : ℕ
  retention_minutes : ℕ
  connections : List (ConnId × EnrichedEvent)
  connection_queue : List ConnId
  process_stats : List (ℕ × ProcStats)
  ip_frequency : List (ℕ × ℕ)
  connection_rates : List (ℕ × List ℚ)
  total_connections : ℕ

def ConnectionHandler.init (max_connections retention_minutes : ℕ) : ConnectionHandler :=
  { max_connections := max_connections, retention_minutes := retention_minutes,
    connections := [], connection_queue := [], process_stats := [],
    ip_frequency := [], connection_rates := [], total_connections := 0 }

/-- The default construction (max_connections 10000, retention_minutes 5). -/
def ConnectionHandler.default : ConnectionHandler := ConnectionHandler.init 10000 5

/-- cleanup_old_connections: delete every stored event strictly older than
now minus the retention window (timestamp is nanoseconds). -/
def cleanup_old_connections (ch : ConnectionHandler) (now : ℚ) : ConnectionHandler :=
  let cutoff : ℚ := now - (ch.retention_minutes : ℚ) * 60
  let kept :=
    ch.connections.filter
      (fun p => decide (¬ ((p.2.raw.timestamp : ℚ) / 1000000000 < cutoff)))
  { ch with connections := kept }

/-- update_statistics: per-pid stats, per-IP frequency, per-pid rate window,
and the every-100th-ingest age sweep (total_connections is still the
pre-increment value at this point, as in the source). -/
def update_statistics (ch : ConnectionHandler) (e : EnrichedEvent) (now : ℚ) :
    ConnectionHandler :=
  let pid := e.raw.pid
  let stats0 : ProcStats :=
    match alist_get ch.process_stats pid with
    | some s => s
    | none =>
        { name := e.raw.comm, connection_count := 0, first_seen := now,
          last_seen := now, unique_destinations := ∅, suspicious_count := 0 }
  let stats1 : ProcStats :=
    { stats0 with
        connection_count := stats0.connection_count + 1
        last_seen := now
        unique_destinations := insert e.raw.daddr stats0.unique_destinations
        suspicious_count :=
          stats0.suspicious_count + (if e.is_suspicious.getD false then 1 else 0) }
  let rates0 := (alist_get ch.connection_rates pid).getD []
  let rates1 := (rates0 ++ [now]).filter (fun t => decide (now - t ≤ 60))
  let ch1 :=
    { ch with
        process_stats := alist_set ch.process_stats pid stats1
        ip_frequency :=
          alist_set ch.ip_frequency e.raw.daddr
            ((alist_get ch.ip_frequency e.raw.daddr).getD 0 + 1)
        connection_rates := alist_set ch.connection_rates pid rates1 }
  if ch.total_connections % 100 = 0 then cleanup_old_connections ch1 now else ch1

/-- Result of one ingest: the new store, the new detector state, and the
payloads handed to broadcast_connection (after the lock is released). -/
structure IngestResult where
  store : ConnectionHandler
  detector : ThreatDetector
  broadcast : List EnrichedEvent

/-- process_connection_event: the source order is enrich, store, aggregate,
score, flag, count, broadcast. The scored fields are written into the dict
entry through object identity (alist_update: visible only if the age sweep
inside update_statistics has not deleted the entry). -/
def process_connection_event (ch : ConnectionHandler) (det : ThreatDetector)
    (lookup : ProcLookup) (ev : RawEvent) (now : ℚ) (hour wday : ℕ) (z : ℚ) :
    IngestResult :=
  let cid := connId ev
  let enriched := enrich_connection_event lookup ev
  let ch1 :=
    { ch with
        connections := alist_set ch.connections cid enriched
        connection_queue := dequeAppend ch.max_connections ch.connection_queue cid }
  let ch2 := update_statistics ch1 enriched now
  let sc := analyze_connection det enriched now hour wday z
  let enriched1 :=
    { enriched with threat_score := some sc.1, is_suspicious := some (decide (50 ≤ sc.1)) }
  let ch3 := { ch2 with connections := alist_update ch2.connections cid (fun _ => enriched1) }
  let ch4 := { ch3 with total_connections := ch3.total_connections + 1 }
  { store := ch4, detector := sc.2, broadcast := [enriched1] }

/-- get_recent_connections: the Python slice list(queue)[-limit:] (whole list
when limit is 0 or exceeds the length), dict lookups of surviving ids, then a
stable descending sort on the kernel timestamp. -/
def get_recent_connections (ch : ConnectionHandler) (limit : ℕ) : List EnrichedEvent :=
  let recent_ids :=
    if limit = 0 then ch.connection_queue
    else ch.connection_queue.drop (ch.connection_queue.length - limit)
  let conns := recent_ids.filterMap (fun cid => alist_get ch.connections cid)
  pySortedDesc (fun e => e.raw.timestamp) conns

/-- get_statistics, top_processes component: stable descending sort on
connection_count, truncated to 10. -/
def get_statistics_top_processes (ch : ConnectionHandler) : List (ℕ × ProcStats) :=
  (pySortedDesc (fun p => p.2.connection_count) ch.process_stats).take 10

/-- get_statistics, top_destinations component: stable descending sort on the
frequency count, truncated to 10. -/
def get_statistics_top_destinations (ch : ConnectionHandler) : List (ℕ × ℕ) :=
  (pySortedDesc (fun p => p.2) ch.ip_frequency).take 10

/-- One ingest call with all of its ambient inputs (process-table outcome,
wall clock, local hour and weekday, ML z-statistic). -/
structure IngestInput where
  lookup : ProcLookup
  ev : RawEvent
  now : ℚ
  hour : ℕ
  wday : ℕ
  z : ℚ

/-- A whole ingest run: fold process_connection_event over a list of inputs. -/
def runIngests (ch : ConnectionHandler) (det : ThreatDetector) :
    List IngestInput → ConnectionHandler × ThreatDetector
  | [] => (ch, det)
  | i :: t =>
      let r := process_connection_event ch det i.lookup i.ev i.now i.hour i.wday i.z
      runIngests r.store r.detector t

/-- websocket_handler.check_rate_limit: prune entries at least 1 s old, admit
and record while strictly under the limit. Returns the admission flag and the
new window. -/
def check_rate_limit (rate_limit : ℕ) (now : ℚ) (window : List ℚ) : Bool × List ℚ :=
  let w1 := window.filter (fun t => decide (now - t < 1))
  if w1.length < rate_limit then (true, w1 ++ [now]) else (false, w1)

/-- Per-client state of the broker: the rate window, the times of messages
actually written to the socket, and whether the client is still registered. -/
structure ClientState where
  window : List ℚ
  sent : List ℚ
  connected : Bool
deriving DecidableEq

def ClientState.init : ClientState := { window := [], sent := [], connected := true }

/-- send_message for one outbound message at time now: on rate-limit denial the
message is dropped (only the pruned window is kept) and the client stays
registered; on admission the message is sent. The default limit is the
handler's rate_limit of 100. -/
def send_message (now : ℚ) (st : ClientState) : ClientState :=
  let c := check_rate_limit 100 now st.window
  if c.1 then { st with window := c.2, sent := st.sent ++ [now] }
  else { st with window := c.2 }

/-- All outbound attempts for one client, in wall-clock order. -/
def runSends (st : ClientState) : List ℚ → ClientState
  | [] => st
  | t :: ts => runSends (send_message t st) ts

/-- Reply surface of handle_kill_process that the claims discriminate on:
either an error frame or an attempted termination of a concrete pid. -/
inductive KillResponse where
  | errorFrame (msg : String)
  | killAttempt (pid : ℕ)
deriving DecidableEq, Repr

/-- handle_kill_process entry check: data.get('data', {}).get('pid') with
Python truthiness (`not pid` is true both for a missing pid and for pid 0),
modelled on the parsed optional pid of the inbound frame. A truthy pid
proceeds to the psutil termination sequence. -/
def handle_kill_process (pid? : Option ℕ) : KillResponse :=
  match pid? with
  | none => .errorFrame "PID not provided for kill_process"
  | some pid =>
      if pid = 0 then .errorFrame "PID not provided for kill_process"
      else .killAttempt pid

/-- Concrete raw event: bash-like process, destination 203.0.113.5:4444
(spec section 8, scenario 1 shape). -/
def exRaw : RawEvent :=
  { timestamp := 1000000000, pid := 100, comm := "bash", cmdline := "bash",
    saddr := 1, daddr := 3405803781, sport := 40000, dport := 4444, protocol := 6 }

/-- Concrete psutil outcome: readable process named bash running from /tmp/x. -/
def exLookup : ProcLookup := .found "bash" "" "/tmp/x" 1 "root" 0 "running"

/-- One ingest of exRaw into fresh default state at time 1 s, hour 12,
weekday 2, ML z-statistic 0. -/
def exRun : IngestResult :=
  process_connection_event ConnectionHandler.default ThreatDetector.init exLookup exRaw 1 12 2 0

/-- A second, distinct raw event (different ConnectionId). -/
def exRaw2 : RawEvent :=
  { timestamp := 2000000000, pid := 101, comm := "sh", cmdline := "sh",
    saddr := 1, daddr := 167837697, sport := 40001, dport := 80, protocol := 6 }

/-- Two distinct recent events ingested into a store with max_connections 1. -/
def c3run : ConnectionHandler × ThreatDetector :=
  runIngests (ConnectionHandler.init 1 5) ThreatDetector.init
    [⟨exLookup, exRaw, 1, 12, 2, 0⟩, ⟨exLookup, exRaw2, 2, 12, 2, 0⟩]

/-- The same raw event ingested twice into fresh default state. -/
def c4run : IngestResult :=
  process_connection_event exRun.store exRun.detector exLookup exRaw 2 12 2 0

/-- Two pids with equal connection_count: pid 5 first-seen earlier with the
older last_seen, pid 3 inserted later with the more recent last_seen. -/
def c7statsOld : ProcStats :=
  { name := "a", connection_count := 3, first_seen := 0, last_seen := 10,
    unique_destinations := ∅, suspicious_count := 0 }

def c7statsNew : ProcStats :=
  { name := "b", connection_count := 3, first_seen := 0, last_seen := 20,
    unique_destinations := ∅, suspicious_count := 0 }

/-- Store whose process_stats insertion order is pid 5 then pid 3 (tied
counts), and whose ip_frequency insertion order is 7 then 4 (tied counts). -/
def c7ch : ConnectionHandler :=
  { ConnectionHandler.default with
      process_stats := [(5, c7statsOld), (3, c7statsNew)],
      ip_frequency := [(7, 2), (4, 2)] }

/-- The ordering claimed for top_processes: descending connection_count,
ties by most-recent last_seen, then ascending pid. -/
def claimProcOrder (a b : ℕ × ProcStats) : Prop :=
  b.2.connection_count < a.2.connection_count ∨
    (a.2.connection_count = b.2.connection_count ∧
      (b.2.last_seen < a.2.last_seen ∨ (a.2.last_seen = b.2.last_seen ∧ a.1 ≤ b.1)))

instance : DecidableRel claimProcOrder := fun a b => by
  unfold claimProcOrder; infer_instance

/-- The store invariant of claim C8 over the per-pid aggregates. -/
def statsInv (ch : ConnectionHandler) : Prop :=
  ∀ pid s, alist_get ch.process_stats pid = some s →
    s.unique_destinations.card ≤ s.connection_count ∧
      s.suspicious_count ≤ s.connection_count

/-- The per-pid stats record produced by one ingest of exRaw at time 1. -/
def c8stats : ProcStats :=
  { name := "bash", connection_count := 1, first_seen := 1, last_seen := 1,
    unique_destinations := insert 3405803781 ∅, suspicious_count := 0 }

lemma alist_get_set {α β : Type} [DecidableEq α] (m : List (α × β)) (k k1 : α) (v : β) :
    alist_get (alist_set m k v) k1 = if k = k1 then some v else alist_get m k1 := by
  induction m with
  | nil => simp [alist_set, alist_get]
  | cons p t ih =>
    obtain ⟨a, b⟩ := p
    by_cases h1 : a = k
    · subst h1
      by_cases h2 : a = k1
      · subst h2; simp [alist_set, alist_get]
      · simp [alist_set, alist_get, h2]
    · by_cases h2 : a = k1
      · subst h2
        have h3 : ¬ k = a := fun h => h1 h.symm
        simp [alist_set, alist_get, h1, h3]
      · simp [alist_set, alist_get, h1, h2, ih]

lemma dequeAppend_length_le {α : Type} (M : ℕ) (l : List α) (a : α) :
    (dequeAppend M l a).length ≤ M := by
  simp only [dequeAppend]
  split
  · simp only [List.length_drop]
    omega
  · rename_i h
    simp only [List.length_append, List.length_cons, List.length_nil] at h ⊢
    omega

lemma le_listMax {l : List ℕ} {a : ℕ} (h : a ∈ l) : a ≤ listMax l := by
  induction l with
  | nil => cases h
  | cons b t ih =>
    rcases List.mem_cons.mp h with rfl | h2
    · exact le_max_left _ _
    · exact le_trans (ih h2) (le_max_right _ _)

lemma listMax_le {l : List ℕ} {n : ℕ} (h : ∀ a ∈ l, a ≤ n) : listMax l ≤ n := by
  induction l with
  | nil => simp [listMax]
  | cons b t ih =>
    simp only [listMax, List.foldr_cons]
    exact max_le (h b (by simp)) (ih (fun a ha => h a (by simp [ha])))

lemma mem_insertByKeyDesc {α : Type} (key : α → ℕ) (a x : α) (l : List α) :
    x ∈ insertByKeyDesc key a l ↔ x = a ∨ x ∈ l := by
  induction l with
  | nil => simp [insertByKeyDesc]
  | cons b t ih =>
    unfold insertByKeyDesc
    split
    · simp
    · simp [ih]
      tauto

lemma sorted_insertByKeyDesc {α : Type} (key : α → ℕ) (a : α) {l : List α}
    (h : l.Pairwise (fun x y => key y ≤ key x)) :
    (insertByKeyDesc key a l).Pairwise (fun x y => key y ≤ key x) := by
  induction l with
  | nil => simp [insertByKeyDesc]
  | cons b t ih =>
    obtain ⟨hb, ht⟩ := List.pairwise_cons.mp h
    unfold insertByKeyDesc
    split
    · rename_i hba
      refine List.Pairwise.cons ?_ h
      intro y hy
      rcases List.mem_cons.mp hy with rfl | hyt
      · exact le_of_lt hba
      · exact le_trans (hb y hyt) (le_of_lt hba)
    · rename_i hba
      refine List.Pairwise.cons ?_ (ih ht)
      intro y hy
      rcases (mem_insertByKeyDesc key a y t).mp hy with rfl | hyt
      · exact Nat.le_of_not_lt hba
      · exact hb y hyt

lemma sorted_pySortedDesc_aux {α : Type} (key : α → ℕ) (l acc : List α)
    (h : acc.Pairwise (fun x y => key y ≤ key x)) :
    (l.foldl (fun acc1 x => insertByKeyDesc key x acc1) acc).Pairwise
      (fun x y => key y ≤ key x) := by
  induction l generalizing acc with
  | nil => simpa using h
  | cons b t ih => exact ih _ (sorted_insertByKeyDesc key b h)

lemma sorted_pySortedDesc {α : Type} (key : α → ℕ) (l : List α) :
    (pySortedDesc key l).Pairwise (fun x y => key y ≤ key x) :=
  sorted_pySortedDesc_aux key l [] (by simp)

lemma filter_insertByKeyDesc {α : Type} (key : α → ℕ) (n : ℕ) (a : α) {l : List α}
    (h : l.Pairwise (fun x y => key y ≤ key x)) :
    (insertByKeyDesc key a l).filter (fun x => key x == n) =
      l.filter (fun x => key x == n) ++ (if key a = n then [a] else []) := by
  induction l with
  | nil =>
    simp only [insertByKeyDesc, List.filter_cons, List.filter_nil]
    by_cases hn : key a = n
    · simp [hn]
    · simp [hn]
  | cons b t ih =>
    obtain ⟨hb, ht⟩ := List.pairwise_cons.mp h
    unfold insertByKeyDesc
    split
    · rename_i hba
      by_cases hn : key a = n
      · have hempty : (b :: t).filter (fun x => key x == n) = [] := by
          rw [List.filter_eq_nil_iff]
          intro x hx
          rcases List.mem_cons.mp hx with rfl | hxt
          · simp only [beq_iff_eq]
            omega
          · have := hb x hxt
            simp only [beq_iff_eq]
            omega
        simp [List.filter_cons, hn, hempty]
      · simp [List.filter_cons, hn]
    · rename_i hba
      simp only [List.filter_cons, ih ht]
      by_cases hbn : key b = n
      · simp [hbn]
      · simp [hbn]

lemma filter_pySortedDesc_aux {α : Type} (key : α → ℕ) (n : ℕ) (l acc : List α)
    (h : acc.Pairwise (fun x y => key y ≤ key x)) :
    (l.foldl (fun acc1 x => insertByKeyDesc key x acc1) acc).filter (fun x => key x == n) =
      acc.filter (fun x => key x == n) ++ l.filter (fun x => key x == n) := by
  induction l generalizing acc with
  | nil => simp
  | cons b t ih =>
    simp only [List.foldl_cons]
    rw [ih _ (sorted_insertByKeyDesc key b h), filter_insertByKeyDesc key n b h]
    simp only [List.filter_cons]
    by_cases hbn : key b = n
    · simp [hbn]
    · simp [hbn]

lemma filter_pySortedDesc {α : Type} (key : α → ℕ) (n : ℕ) (l : List α) :
    (pySortedDesc key l).filter (fun x => key x == n) = l.filter (fun x => key x == n) := by
  have := filter_pySortedDesc_aux key n l [] (by simp)
  simpa [pySortedDesc] using this

lemma maxDstCount_mono (r s : List HistEntry) : maxDstCount r ≤ maxDstCount (r ++ s) := by
  apply listMax_le
  intro a ha
  simp only [maxDstCount, List.mem_map] at ha
  obtain ⟨c, hc, rfl⟩ := ha
  have h1 : countDst r c.dst_ip ≤ countDst (r ++ s) c.dst_ip := by
    unfold countDst
    rw [List.countP_append]
    omega
  have h2 : countDst (r ++ s) c.dst_ip ≤ maxDstCount (r ++ s) := by
    apply le_listMax
    simp only [List.mem_map]
    exact ⟨c, List.mem_append_left s hc, rfl⟩
  omega

lemma rule2_of_recent_mono (r s : List HistEntry) :
    rule2_of_recent r ≤ rule2_of_recent (r ++ s) := by
  unfold rule2_of_recent
  have hlen : r.length ≤ (r ++ s).length := by simp
  have hmax := maxDstCount_mono r s
  apply add_le_add
  · split_ifs <;> omega
  · split_ifs with h1 h2
    · exact le_refl _
    · exact absurd ⟨le_trans h1.1 hlen, lt_of_lt_of_le h1.2 hmax⟩ h2
    · exact Nat.zero_le _
    · exact Nat.zero_le _

/-- C9: the rule-2 (connection-frequency) contribution is monotone under
recording additional connections for the pid: appending entries to the
per-pid history never decreases the score of _check_connection_frequency
(the 5/10/15/25 threshold ladder and the same-destination burst bonus are
both monotone in the recorded window). -/
theorem C9_rule2_monotone (hist extra : List HistEntry) (now : ℚ) :
    check_connection_frequency hist now ≤ check_connection_frequency (hist ++ extra) now := by
  unfold check_connection_frequency
  rw [List.filter_append]
  exact rule2_of_recent_mono _ _

/-- C10: an inbound kill_process frame with a missing pid and one with pid 0
receive the same error reply, and neither reaches the termination path
(Python truthiness: `not pid` holds for both None and 0). -/
theorem C10_kill_process_zero_pid :
    handle_kill_process none = KillResponse.errorFrame "PID not provided for kill_process" ∧
      handle_kill_process (some 0) = handle_kill_process none := by
  constructor <;> rfl

/-- C5: the enrichment path marks dport 9418 as NOT safe, because the
handler's safe_ports literal omits 9418 (it lists 995 twice instead), while
the detector's own safe_ports literal and the specified SafePorts both
contain 9418 - the two whitelists in the code disagree. -/
theorem C5_safe_port_9418 :
    (enrich_connection_event exLookup { exRaw with dport := 9418 }).is_safe_port = false ∧
      9418 ∉ handler_safe_ports ∧ 9418 ∈ detector_safe_ports ∧ 9418 ∈ spec_SafePorts := by
  refine ⟨by rfl, by decide, by decide, by decide⟩

/-- C7 counterexample: with tied connection_counts (pid 5 inserted first with
last_seen 10, pid 3 inserted later with last_seen 20) the code returns the
insertion order [5, 3]; the claimed tie-break (most-recent last_seen, then
ascending key) requires [3, 5] either way, so the returned list is not
sorted by the claimed order. The destination tie [(7,2),(4,2)] likewise
stays in insertion order, not ascending key order. -/
theorem C7_counterexample :
    (get_statistics_top_processes c7ch).map Prod.fst = [5, 3] ∧
      c7statsOld.connection_count = c7statsNew.connection_count ∧
      c7statsOld.last_seen < c7statsNew.last_seen ∧
      ¬ (get_statistics_top_processes c7ch).Pairwise claimProcOrder ∧
      (get_statistics_top_destinations c7ch).map Prod.fst = [7, 4] := by
  have htop : get_statistics_top_processes c7ch = [(5, c7statsOld), (3, c7statsNew)] := by
    norm_num [get_statistics_top_processes, c7ch, pySortedDesc, insertByKeyDesc,
      c7statsOld, c7statsNew, ConnectionHandler.default, ConnectionHandler.init]
  refine ⟨by rw [htop]; rfl, by rfl, by norm_num [c7statsOld, c7statsNew], ?_, ?_⟩
  · rw [htop]
    intro hpair
    have h1 := (List.pairwise_cons.mp hpair).1 (3, c7statsNew) (by simp)
    rcases h1 with h2 | ⟨h3, h4 | ⟨h5, h6⟩⟩
    · exact absurd h2 (by norm_num [c7statsOld, c7statsNew])
    · exact absurd h4 (by norm_num [c7statsOld, c7statsNew])
    · exact absurd h6 (by norm_num)
  · norm_num [get_statistics_top_destinations, c7ch, pySortedDesc, insertByKeyDesc,
      ConnectionHandler.default, ConnectionHandler.init]

/-- C7 amended: top_processes and top_destinations are sorted by descending
connection_count / frequency and truncated to at most 10 entries, but ties
keep the insertion (first-touch) order of the underlying map - the stable
sort never consults last_seen or the key. Stability is stated as: the
entries of any fixed key value appear in the sorted list exactly as in the
map. -/
theorem C7_top_lists (ch : ConnectionHandler) (n : ℕ) :
    (get_statistics_top_processes ch).Pairwise
        (fun a b => b.2.connection_count ≤ a.2.connection_count) ∧
      (get_statistics_top_processes ch).length ≤ 10 ∧
      (pySortedDesc (fun p => p.2.connection_count) ch.process_stats).filter
          (fun p => p.2.connection_count == n) =
        ch.process_stats.filter (fun p => p.2.connection_count == n) ∧
      (get_statistics_top_destinations ch).Pairwise (fun a b => b.2 ≤ a.2) ∧
      (get_statistics_top_destinations ch).length ≤ 10 ∧
      (pySortedDesc (fun p : ℕ × ℕ => p.2) ch.ip_frequency).filter (fun p => p.2 == n) =
        ch.ip_frequency.filter (fun p => p.2 == n) := by
  refine ⟨?_, ?_, ?_, ?_, ?_, ?_⟩
  · exact (sorted_pySortedDesc _ ch.process_stats).sublist
      (List.take_sublist 10 _)
  · exact List.length_take_le 10 _
  · exact filter_pySortedDesc _ n _
  · exact (sorted_pySortedDesc _ ch.ip_frequency).sublist
      (List.take_sublist 10 _)
  · exact List.length_take_le 10 _
  · exact filter_pySortedDesc _ n _

lemma ml_anomaly_fst_congr (st1 st2 : ThreatDetector) (e : EnrichedEvent) (hour wday : ℕ)
    (z : ℚ) (h : st1.connection_features = st2.connection_features) :
    (ml_anomaly_detection st1 e hour wday z).1 = (ml_anomaly_detection st2 e hour wday z).1 := by
  simp only [ml_anomaly_detection, h]
  split
  · rfl
  · split <;> rfl

lemma max0_cast (n : ℕ) (q : ℚ) : (0 : ℚ) ⊔ ((n : ℚ) ⊔ q) = (n : ℚ) ⊔ q :=
  max_eq_right (le_trans (by positivity) (le_max_left _ _))

lemma analyze_connection_fst (det : ThreatDetector) (e : EnrichedEvent) (now : ℚ)
    (hour wday : ℕ) (z : ℚ) :
    (analyze_connection det e now hour wday z).1 =
      ⌊min 100 (max ((analyze_rule_sum det e now hour wday : ℚ))
        (analyze_ml_score det e hour wday z * 50))⌋ := by
  have hfeat :
      ({ detectorTrack det e now with
          process_first_connection :=
            (check_first_time_process (detectorTrack det e now).process_first_connection e).2 } :
        ThreatDetector).connection_features = det.connection_features := rfl
  have hml := ml_anomaly_fst_congr _ det e hour wday z hfeat
  simp only [analyze_connection]
  rw [hml, max0_cast]
  rfl

/-- C1: the score attached to the broadcast/stored event is exactly
int(min(100, max(rule_sum, anomaly*50))) for the eight-rule sum and the
anomaly score the code computes, it lies in [0, 100], and the attached
is_suspicious flag is exactly (threat_score >= 50). -/
theorem C1_score_combination (ch : ConnectionHandler) (det : ThreatDetector)
    (lookup : ProcLookup) (ev : RawEvent) (now : ℚ) (hour wday : ℕ) (z : ℚ) :
    (process_connection_event ch det lookup ev now hour wday z).broadcast.map
        (fun e1 => (e1.threat_score, e1.is_suspicious)) =
      [(some (⌊min 100 (max ((analyze_rule_sum det (enrich_connection_event lookup ev) now hour wday : ℚ))
          (analyze_ml_score det (enrich_connection_event lookup ev) hour wday z * 50))⌋),
        some (decide ((50 : ℤ) ≤ ⌊min 100 (max ((analyze_rule_sum det (enrich_connection_event lookup ev) now hour wday : ℚ))
          (analyze_ml_score det (enrich_connection_event lookup ev) hour wday z * 50))⌋)))] ∧
      (0 : ℤ) ≤ ⌊min 100 (max ((analyze_rule_sum det (enrich_connection_event lookup ev) now hour wday : ℚ))
          (analyze_ml_score det (enrich_connection_event lookup ev) hour wday z * 50))⌋ ∧
      ⌊min 100 (max ((analyze_rule_sum det (enrich_connection_event lookup ev) now hour wday : ℚ))
          (analyze_ml_score det (enrich_connection_event lookup ev) hour wday z * 50))⌋ ≤ 100 := by
  set e := enrich_connection_event lookup ev with he
  set q : ℚ := min 100 (max ((analyze_rule_sum det e now hour wday : ℚ))
      (analyze_ml_score det e hour wday z * 50)) with hq
  refine ⟨?_, ?_, ?_⟩
  · simp only [process_connection_event, List.map_cons, List.map_nil]
    rw [analyze_connection_fst det e now hour wday z]
  · rw [Int.floor_nonneg]
    rw [hq]
    refine le_min (by norm_num) (le_trans ?_ (le_max_left _ _))
    positivity
  · have h1 : q ≤ 100 := min_le_left _ _
    calc ⌊q⌋ ≤ ⌊(100 : ℚ)⌋ := Int.floor_le_floor h1
    _ = 100 := by norm_num

lemma enrich_is_suspicious_none (lookup : ProcLookup) (ev : RawEvent) :
    (enrich_connection_event lookup ev).is_suspicious = none := by
  cases lookup <;> rfl

lemma enrich_raw (lookup : ProcLookup) (ev : RawEvent) :
    (enrich_connection_event lookup ev).raw = ev := by
  cases lookup <;> rfl

/-- C2 amended: within one ingest the actual order is enrich, then store and
update the aggregates from the still-unscored event, then score and attach
threat_score/is_suspicious, then broadcast. Consequently the per-pid
suspicious_count is computed before any flag exists: it always keeps its
pre-ingest value (0 for a new pid), even when the attached flag is true;
the flag on the broadcast event is exactly (score >= 50). -/
theorem C2_aggregates_before_scoring (ch : ConnectionHandler) (det : ThreatDetector)
    (lookup : ProcLookup) (ev : RawEvent) (now : ℚ) (hour wday : ℕ) (z : ℚ) :
    (alist_get (process_connection_event ch det lookup ev now hour wday z).store.process_stats
        ev.pid).map (fun s => s.suspicious_count) =
      some (((alist_get ch.process_stats ev.pid).map (fun s => s.suspicious_count)).getD 0) ∧
      (process_connection_event ch det lookup ev now hour wday z).broadcast.map
          (fun e1 => e1.is_suspicious) =
        [some (decide ((50 : ℤ) ≤
          (analyze_connection det (enrich_connection_event lookup ev) now hour wday z).1))] := by
  constructor
  · simp only [process_connection_event, update_statistics, cleanup_old_connections,
      enrich_raw, enrich_is_suspicious_none]
    split <;>
    · cases h : alist_get ch.process_stats ev.pid <;>
        simp [alist_get_set, h, enrich_raw, enrich_is_suspicious_none]
  · simp only [process_connection_event, List.map_cons, List.map_nil]

set_option maxHeartbeats 4000000 in
/-- C2 counterexample: the concrete high-scoring ingest exRun attaches
is_suspicious = true to the stored/broadcast event, yet the per-pid
aggregate suspicious_count for its pid is 0, because update_statistics ran
before the score existed. Under the claimed order (score before aggregates)
suspicious_count would be 1. -/
theorem C2_counterexample :
    (exRun.broadcast.map (fun e1 => e1.is_suspicious)) = [some true] ∧
      (alist_get exRun.store.process_stats 100).map (fun s => s.suspicious_count) = some 0 := by
  norm_num [exRun, process_connection_event, update_statistics, cleanup_old_connections,
    analyze_connection, detectorTrack, check_destination_rarity, check_connection_frequency,
    rule2_of_recent, maxDstCount, countDst, listMax, check_suspicious_ports,
    check_unusual_timing, check_first_time_process, check_geographic_anomalies,
    check_process_anomalies, check_connection_patterns, seqCountFinal, extract_features,
    ml_anomaly_detection, enrich_connection_event, format_ip, is_private_ip,
    alist_get, alist_set, alist_update, dequeAppend, histOf, exRaw, exLookup,
    ConnectionHandler.default, ConnectionHandler.init, ThreatDetector.init,
    handler_safe_ports, detector_safe_ports, suspicious_ports, common_dns_servers,
    system_processes, suspicious_names, suspicious_args, pySortedAsc, insertByKeyAsc,
    show strToLower "bash" = "bash" from rfl,
    show strToLower "" = "" from rfl,
    show strToLower "/tmp/x" = "/tmp/x" from rfl,
    show substrB "nc" "bash" = false from rfl,
    show substrB "ncat" "bash" = false from rfl,
    show substrB "netcat" "bash" = false from rfl,
    show substrB "python" "bash" = false from rfl,
    show substrB "perl" "bash" = false from rfl,
    show substrB "bash" "bash" = true from rfl,
    show substrB "sh" "bash" = true from rfl,
    show substrB "-e" "" = false from rfl,
    show substrB "--execute" "" = false from rfl,
    show substrB "/bin/sh" "" = false from rfl,
    show substrB "/bin/bash" "" = false from rfl,
    show substrB "reverse" "" = false from rfl,
    show substrB "shell" "" = false from rfl,
    show substrB "/tmp/" "/tmp/x" = true from rfl,
    show strStartsWith "/." "/tmp/x" = false from rfl,
    show ("bash" : String) ≠ "systemd" from by decide,
    show ("bash" : String) ≠ "kernel" from by decide,
    show ("bash" : String) ≠ "init" from by decide,
    show ("bash" : String) ≠ "kthreadd" from by decide]

lemma process_connection_event_queue (ch : ConnectionHandler) (det : ThreatDetector)
    (lookup : ProcLookup) (ev : RawEvent) (now : ℚ) (hour wday : ℕ) (z : ℚ) :
    (process_connection_event ch det lookup ev now hour wday z).store.max_connections =
        ch.max_connections ∧
      (process_connection_event ch det lookup ev now hour wday z).store.connection_queue =
        dequeAppend ch.max_connections ch.connection_queue (connId ev) := by
  simp only [process_connection_event, update_statistics, cleanup_old_connections]
  split <;> exact ⟨rfl, rfl⟩

lemma runIngests_queue_bound (inputs : List IngestInput) (ch : ConnectionHandler)
    (det : ThreatDetector) (h : ch.connection_queue.length ≤ ch.max_connections) :
    (runIngests ch det inputs).1.connection_queue.length ≤ ch.max_connections ∧
      (runIngests ch det inputs).1.max_connections = ch.max_connections := by
  induction inputs generalizing ch det with
  | nil => exact ⟨h, rfl⟩
  | cons i t ih =>
    simp only [runIngests]
    obtain ⟨hmax, hq⟩ := process_connection_event_queue ch det i.lookup i.ev i.now i.hour i.wday i.z
    have hstep : (process_connection_event ch det i.lookup i.ev i.now i.hour i.wday
        i.z).store.connection_queue.length ≤
        (process_connection_event ch det i.lookup i.ev i.now i.hour i.wday i.z).store.max_connections := by
      rw [hmax, hq]
      exact dequeAppend_length_le _ _ _
    obtain ⟨h1, h2⟩ := ih _ _ hstep
    exact ⟨by rw [hmax] at h1; exact h1, by rw [h2, hmax]⟩

/-- C3 amended: the connection_queue index is capacity-bounded (its length
never exceeds max_connections after any ingest run from a fresh store), and
the age sweep removes exactly the events older than the retention cutoff
(every event it keeps satisfies the age bound at sweep time). The
connections map itself has no capacity eviction - see the counterexample. -/
theorem C3_bounds (mc rm : ℕ) (inputs : List IngestInput) (ch : ConnectionHandler) (now : ℚ) :
    (runIngests (ConnectionHandler.init mc rm) ThreatDetector.init inputs).1.connection_queue.length ≤ mc ∧
      ((cleanup_old_connections ch now).connections.all
        (fun p => decide (now - (ch.retention_minutes : ℚ) * 60 ≤
          (p.2.raw.timestamp : ℚ) / 1000000000))) = true := by
  constructor
  · exact (runIngests_queue_bound inputs (ConnectionHandler.init mc rm) ThreatDetector.init
      (by simp [ConnectionHandler.init])).1
  · rw [List.all_eq_true]
    intro p hp
    simp only [cleanup_old_connections, List.mem_filter] at hp
    have h2 := hp.2
    simp only [decide_eq_true_eq] at h2 ⊢
    linarith [not_lt.mp h2]

set_option maxHeartbeats 8000000 in
/-- C3 counterexample: with max_connections = 1, ingesting two distinct
recent events leaves 2 retained enriched events in the connections map -
the capacity bound only trims the id queue (here of length 1), never the
map, so total retained events exceed max_connections. -/
theorem C3_counterexample :
    c3run.1.connections.length = 2 ∧ c3run.1.max_connections = 1 ∧
      c3run.1.connection_queue.length = 1 := by
  norm_num [c3run, runIngests, process_connection_event, update_statistics,
    cleanup_old_connections, analyze_connection, detectorTrack, check_destination_rarity,
    check_connection_frequency, rule2_of_recent, maxDstCount, countDst, listMax,
    check_suspicious_ports, check_unusual_timing, check_first_time_process,
    check_geographic_anomalies, check_process_anomalies, check_connection_patterns,
    seqCountFinal, extract_features, ml_anomaly_detection, enrich_connection_event,
    format_ip, is_private_ip, alist_get, alist_set, alist_update, dequeAppend, histOf,
    exRaw, exRaw2, exLookup, ConnectionHandler.init, ThreatDetector.init, connId,
    handler_safe_ports, detector_safe_ports, suspicious_ports, common_dns_servers,
    system_processes, suspicious_names, suspicious_args, pySortedAsc, insertByKeyAsc,
    show toString (0 : ℕ) = "0" from rfl,
    show toString (1 : ℕ) = "1" from rfl,
    show toString (5 : ℕ) = "5" from rfl,
    show toString (10 : ℕ) = "10" from rfl,
    show toString (113 : ℕ) = "113" from rfl,
    show toString (203 : ℕ) = "203" from rfl,
    show strToLower "bash" = "bash" from rfl,
    show strToLower "" = "" from rfl,
    show strToLower "/tmp/x" = "/tmp/x" from rfl,
    show substrB "nc" "bash" = false from rfl,
    show substrB "ncat" "bash" = false from rfl,
    show substrB "netcat" "bash" = false from rfl,
    show substrB "python" "bash" = false from rfl,
    show substrB "perl" "bash" = false from rfl,
    show substrB "bash" "bash" = true from rfl,
    show substrB "sh" "bash" = true from rfl,
    show substrB "-e" "" = false from rfl,
    show substrB "--execute" "" = false from rfl,
    show substrB "/bin/sh" "" = false from rfl,
    show substrB "/bin/bash" "" = false from rfl,
    show substrB "reverse" "" = false from rfl,
    show substrB "shell" "" = false from rfl,
    show substrB "/tmp/" "/tmp/x" = true from rfl,
    show strStartsWith "/." "/tmp/x" = false from rfl,
    show ("bash" : String) ≠ "systemd" from by decide,
    show ("bash" : String) ≠ "kernel" from by decide,
    show ("bash" : String) ≠ "init" from by decide,
    show ("bash" : String) ≠ "kthreadd" from by decide]

lemma length_insertByKeyDesc {α : Type} (key : α → ℕ) (a : α) (l : List α) :
    (insertByKeyDesc key a l).length = l.length + 1 := by
  induction l with
  | nil => rfl
  | cons b t ih =>
    unfold insertByKeyDesc
    split
    · simp
    · simp [ih]

lemma length_pySortedDesc_aux {α : Type} (key : α → ℕ) (l acc : List α) :
    (l.foldl (fun acc1 x => insertByKeyDesc key x acc1) acc).length = acc.length + l.length := by
  induction l generalizing acc with
  | nil => simp
  | cons b t ih =>
    simp only [List.foldl_cons, ih, length_insertByKeyDesc, List.length_cons]
    omega

lemma length_pySortedDesc {α : Type} (key : α → ℕ) (l : List α) :
    (pySortedDesc key l).length = l.length := by
  simpa [pySortedDesc] using length_pySortedDesc_aux key l []

set_option maxHeartbeats 4000000 in
/-- C4 amended: re-ingesting the same raw event leaves exactly one binding
for its ConnectionId in the connections map (the dict write deduplicates),
but each ingest appends the id to the queue again, so after two ingests of
the same event from a fresh store the queue holds the id twice and the
recent-connections listing returns the event twice (once per ingest), not
once. -/
theorem C4_dedup_and_listing (lookup1 lookup2 : ProcLookup) (ev : RawEvent)
    (now1 now2 : ℚ) (hr1 wd1 hr2 wd2 : ℕ) (z1 z2 : ℚ) :
    ((process_connection_event
        (process_connection_event ConnectionHandler.default ThreatDetector.init
          lookup1 ev now1 hr1 wd1 z1).store
        (process_connection_event ConnectionHandler.default ThreatDetector.init
          lookup1 ev now1 hr1 wd1 z1).detector
        lookup2 ev now2 hr2 wd2 z2).store.connections.countP
          (fun p => decide (p.1 = connId ev))) = 1 ∧
      (process_connection_event
        (process_connection_event ConnectionHandler.default ThreatDetector.init
          lookup1 ev now1 hr1 wd1 z1).store
        (process_connection_event ConnectionHandler.default ThreatDetector.init
          lookup1 ev now1 hr1 wd1 z1).detector
        lookup2 ev now2 hr2 wd2 z2).store.connection_queue = [connId ev, connId ev] ∧
      (get_recent_connections
        (process_connection_event
          (process_connection_event ConnectionHandler.default ThreatDetector.init
            lookup1 ev now1 hr1 wd1 z1).store
          (process_connection_event ConnectionHandler.default ThreatDetector.init
            lookup1 ev now1 hr1 wd1 z1).detector
          lookup2 ev now2 hr2 wd2 z2).store 1000).length = 2 := by
  set cid := connId ev with hcid
  set r1 := process_connection_event ConnectionHandler.default ThreatDetector.init
    lookup1 ev now1 hr1 wd1 z1 with hr1def
  set r2 := process_connection_event r1.store r1.detector lookup2 ev now2 hr2 wd2 z2 with hr2def
  have htot1 : r1.store.total_connections = 1 := by
    rw [hr1def]
    simp only [process_connection_event, update_statistics, cleanup_old_connections,
      ConnectionHandler.default, ConnectionHandler.init]
    norm_num
  have hq1 : r1.store.connection_queue = [cid] := by
    rw [hr1def]
    simp only [process_connection_event, update_statistics, cleanup_old_connections,
      ConnectionHandler.default, ConnectionHandler.init, dequeAppend]
    norm_num
  have hmax1 : r1.store.max_connections = 10000 := by
    rw [hr1def]
    simp only [process_connection_event, update_statistics, cleanup_old_connections,
      ConnectionHandler.default, ConnectionHandler.init]
    norm_num
  have hconn1 : r1.store.connections = [] ∨ ∃ v, r1.store.connections = [(cid, v)] := by
    rw [hr1def]
    simp only [process_connection_event, update_statistics, cleanup_old_connections,
      ConnectionHandler.default, ConnectionHandler.init, alist_set]
    norm_num [List.filter_cons]
    split
    · right
      simp [alist_update]
    · left
      simp [alist_update]
  have hconn2 : ∃ w, r2.store.connections = [(cid, w)] := by
    rw [hr2def]
    simp only [process_connection_event, update_statistics, cleanup_old_connections, htot1]
    norm_num
    rcases hconn1 with h | ⟨v, h⟩ <;>
    · rw [h]
      simp [alist_set, alist_update]
  have hq2 : r2.store.connection_queue = [cid, cid] := by
    obtain ⟨hm2, hqq2⟩ := process_connection_event_queue r1.store r1.detector
      lookup2 ev now2 hr2 wd2 z2
    rw [hr2def] at *
    rw [hqq2, hq1, hmax1]
    norm_num [dequeAppend]
  obtain ⟨w, hw⟩ := hconn2
  refine ⟨?_, hq2, ?_⟩
  · rw [hw]
    simp
  · simp only [get_recent_connections, hq2, hw]
    norm_num [alist_get, length_pySortedDesc, List.filterMap_cons]

set_option maxHeartbeats 8000000 in
/-- C4 counterexample: ingesting the same raw event twice leaves one entry
in the connections map, but get_recent_connections returns the event twice,
so the recent-connections listing does not reflect the ingest once. -/
theorem C4_counterexample :
    c4run.store.connections.length = 1 ∧
      (get_recent_connections c4run.store 1000).length = 2 := by
  norm_num [c4run, exRun, process_connection_event, update_statistics,
    cleanup_old_connections, analyze_connection, detectorTrack, check_destination_rarity,
    check_connection_frequency, rule2_of_recent, maxDstCount, countDst, listMax,
    check_suspicious_ports, check_unusual_timing, check_first_time_process,
    check_geographic_anomalies, check_process_anomalies, check_connection_patterns,
    seqCountFinal, extract_features, ml_anomaly_detection, enrich_connection_event,
    format_ip, is_private_ip, alist_get, alist_set, alist_update, dequeAppend, histOf,
    get_recent_connections, length_pySortedDesc, List.filterMap_cons,
    exRaw, exLookup, ConnectionHandler.default, ConnectionHandler.init,
    ThreatDetector.init, connId,
    handler_safe_ports, detector_safe_ports, suspicious_ports, common_dns_servers,
    system_processes, suspicious_names, suspicious_args, pySortedAsc, insertByKeyAsc,
    show toString (0 : ℕ) = "0" from rfl,
    show toString (1 : ℕ) = "1" from rfl,
    show toString (5 : ℕ) = "5" from rfl,
    show toString (113 : ℕ) = "113" from rfl,
    show toString (203 : ℕ) = "203" from rfl,
    show strToLower "bash" = "bash" from rfl,
    show strToLower "" = "" from rfl,
    show strToLower "/tmp/x" = "/tmp/x" from rfl,
    show substrB "nc" "bash" = false from rfl,
    show substrB "ncat" "bash" = false from rfl,
    show substrB "netcat" "bash" = false from rfl,
    show substrB "python" "bash" = false from rfl,
    show substrB "perl" "bash" = false from rfl,
    show substrB "bash" "bash" = true from rfl,
    show substrB "sh" "bash" = true from rfl,
    show substrB "-e" "" = false from rfl,
    show substrB "--execute" "" = false from rfl,
    show substrB "/bin/sh" "" = false from rfl,
    show substrB "/bin/bash" "" = false from rfl,
    show substrB "reverse" "" = false from rfl,
    show substrB "shell" "" = false from rfl,
    show substrB "/tmp/" "/tmp/x" = true from rfl,
    show strStartsWith "/." "/tmp/x" = false from rfl,
    show ("bash" : String) ≠ "systemd" from by decide,
    show ("bash" : String) ≠ "kernel" from by decide,
    show ("bash" : String) ≠ "init" from by decide,
    show ("bash" : String) ≠ "kthreadd" from by decide]

lemma send_message_connected (now : ℚ) (st : ClientState) :
    (send_message now st).connected = st.connected := by
  simp only [send_message]
  split <;> rfl

lemma runSends_connected (ts : List ℚ) (st : ClientState) :
    (runSends st ts).connected = st.connected := by
  induction ts generalizing st with
  | nil => rfl
  | cons t rest ih => simp only [runSends, ih, send_message_connected]

lemma window_filter_absorb (sent : List ℚ) (c now : ℚ) (h : c ≤ now) :
    (sent.filter (fun s1 => decide (c - s1 < 1))).filter (fun s1 => decide (now - s1 < 1)) =
      sent.filter (fun s1 => decide (now - s1 < 1)) := by
  rw [List.filter_filter]
  apply List.filter_congr
  intro s1 _
  by_cases hs : now - s1 < 1
  · have hc : c - s1 < 1 := by linarith
    simp [hs, hc]
  · simp [hs]

lemma rate_limiter_invariant (ts : List ℚ) (c : ℚ) (st : ClientState)
    (hchain : List.Chain (· ≤ ·) c ts)
    (hle : ∀ s1 ∈ st.sent, s1 ≤ c)
    (hwin : st.window = st.sent.filter (fun s1 => decide (c - s1 < 1)))
    (hcount : ∀ t, st.sent.countP (fun s1 => decide (t - 1 < s1 ∧ s1 ≤ t)) ≤ 100) :
    ∀ t, (runSends st ts).sent.countP (fun s1 => decide (t - 1 < s1 ∧ s1 ≤ t)) ≤ 100 := by
  induction ts generalizing c st with
  | nil => exact hcount
  | cons now rest ih =>
    obtain ⟨hcnow, hchain2⟩ := List.chain_cons.mp hchain
    simp only [runSends]
    have hpruned : (check_rate_limit 100 now st.window).2 =
        st.sent.filter (fun s1 => decide (now - s1 < 1)) ++
          (if (st.sent.filter (fun s1 => decide (now - s1 < 1))).length < 100
            then [now] else []) := by
      simp only [check_rate_limit, hwin, window_filter_absorb st.sent c now hcnow]
      split <;> simp
    by_cases hadm : (st.sent.filter (fun s1 => decide (now - s1 < 1))).length < 100
    · -- admitted: the message is sent
      have hsend : send_message now st =
          { st with window := st.sent.filter (fun s1 => decide (now - s1 < 1)) ++ [now],
                    sent := st.sent ++ [now] } := by
        simp [send_message, check_rate_limit, hwin,
          window_filter_absorb st.sent c now hcnow, hadm]
      rw [hsend]
      apply ih now
      · exact hchain2
      · intro s1 hs1
        rcases List.mem_append.mp hs1 with h1 | h1
        · exact le_trans (hle s1 h1) hcnow
        · simp only [List.mem_singleton] at h1
          exact le_of_eq h1
      · simp only [List.filter_append, List.filter_cons, List.filter_nil]
        have hnn : decide (now - now < 1) = true := by simp
        simp [hnn]
      · intro t
        rw [List.countP_append]
        by_cases ht : (t - 1 < now ∧ now ≤ t)
        · have h99 : st.sent.countP (fun s1 => decide (t - 1 < s1 ∧ s1 ≤ t)) ≤ 99 := by
            have hmono : st.sent.countP (fun s1 => decide (t - 1 < s1 ∧ s1 ≤ t)) ≤
                st.sent.countP (fun s1 => decide (now - s1 < 1)) := by
              apply List.countP_mono_left
              intro s1 hs1 hp
              simp only [decide_eq_true_eq] at hp ⊢
              have hsc := hle s1 hs1
              obtain ⟨hp1, hp2⟩ := hp
              obtain ⟨ht1, ht2⟩ := ht
              linarith
            have hflen : st.sent.countP (fun s1 => decide (now - s1 < 1)) =
                (st.sent.filter (fun s1 => decide (now - s1 < 1))).length :=
              List.countP_eq_length_filter _ _
            omega
          have hone : List.countP (fun s1 => decide (t - 1 < s1 ∧ s1 ≤ t)) [now] ≤ 1 := by
            simp [List.countP_cons, ht]
          omega
        · have hzero : List.countP (fun s1 => decide (t - 1 < s1 ∧ s1 ≤ t)) [now] = 0 := by
            simp [List.countP_cons, ht]
          rw [hzero]
          simpa using hcount t
    · -- dropped: pruned window kept, nothing sent, client untouched
      have hsend : send_message now st =
          { st with window := st.sent.filter (fun s1 => decide (now - s1 < 1)) } := by
        simp [send_message, check_rate_limit, hwin,
          window_filter_absorb st.sent c now hcnow, hadm]
      rw [hsend]
      apply ih now
      · exact hchain2
      · intro s1 hs1
        exact le_trans (hle s1 hs1) hcnow
      · rfl
      · exact hcount

/-- C6: over any chronologically ordered run of outbound send attempts to one
client, at most 100 messages are actually sent in any sliding 1-second
window (t-1, t]; a rate-limited attempt drops the message without
disconnecting the client (connected stays true); and every timestamp kept
in the window by an admission check is younger than 1 second. -/
theorem C6_rate_limit (ts : List ℚ) (hts : ts.Chain' (· ≤ ·)) (t now : ℚ) (w : List ℚ) :
    (runSends ClientState.init ts).sent.countP
        (fun s1 => decide (t - 1 < s1 ∧ s1 ≤ t)) ≤ 100 ∧
      (runSends ClientState.init ts).connected = true ∧
      ((check_rate_limit 100 now w).2.all (fun s1 => decide (now - s1 < 1)) ∨
        (check_rate_limit 100 now w).2.getLast? = some now) := by
  refine ⟨?_, ?_, ?_⟩
  · cases ts with
    | nil => simp [runSends, ClientState.init]
    | cons t0 rest =>
      apply rate_limiter_invariant (t0 :: rest) t0 ClientState.init
      · exact List.chain_cons.mpr ⟨le_refl t0, hts⟩
      · intro s1 hs1
        simp [ClientState.init] at hs1
      · rfl
      · intro t1
        simp [ClientState.init]
  · rw [runSends_connected]
    rfl
  · simp only [check_rate_limit]
    split
    · right
      simp
    · left
      rw [List.all_eq_true]
      intro s1 hs1
      exact (List.mem_filter.mp hs1).2

/-- Witness for C6 at the concrete trace [0, 1]: instantiates the theorem
with its chronological-order hypothesis discharged. -/
theorem C6_rate_limit_witness :
    (runSends ClientState.init [0, 1]).sent.countP
        (fun s1 => decide ((0 : ℚ) - 1 < s1 ∧ s1 ≤ 0)) ≤ 100 ∧
      (runSends ClientState.init [0, 1]).connected = true ∧
      ((check_rate_limit 100 (0 : ℚ) []).2.all (fun s1 => decide ((0 : ℚ) - s1 < 1)) ∨
        (check_rate_limit 100 (0 : ℚ) []).2.getLast? = some 0) :=
  C6_rate_limit [0, 1] (by norm_num [List.chain'_cons]) 0 0 []

lemma statsInv_step (ch : ConnectionHandler) (det : ThreatDetector) (lookup : ProcLookup)
    (ev : RawEvent) (now : ℚ) (hour wday : ℕ) (z : ℚ) (h : statsInv ch) :
    statsInv (process_connection_event ch det lookup ev now hour wday z).store := by
  intro pid s hs
  simp only [process_connection_event, update_statistics, cleanup_old_connections,
    enrich_raw, enrich_is_suspicious_none] at hs
  split at hs <;>
  · rw [alist_get_set] at hs
    split at hs
    · cases hs
      cases h0 : alist_get ch.process_stats ev.pid <;> simp only [h0] <;> constructor
      · simp [Finset.card_insert_le]
      · simp
      · rename_i s0
        have hb := h ev.pid s0 h0
        calc (insert ev.daddr s0.unique_destinations).card
            ≤ s0.unique_destinations.card + 1 := Finset.card_insert_le _ _
        _ ≤ s0.connection_count + 1 := by omega
      · rename_i s0
        have hb := h ev.pid s0 h0
        simp only [Option.getD_none, Bool.false_eq_true, if_neg, ite_false]
        omega
    · exact h pid s hs

lemma runIngests_statsInv (inputs : List IngestInput) (ch : ConnectionHandler)
    (det : ThreatDetector) (h : statsInv ch) : statsInv (runIngests ch det inputs).1 := by
  induction inputs generalizing ch det with
  | nil => exact h
  | cons i t ih =>
    exact ih _ _ (statsInv_step ch det i.lookup i.ev i.now i.hour i.wday i.z h)

/-- C8: after any ingest run from a fresh store, every pid in process_stats
has at most connection_count unique destinations and at most
connection_count suspicious connections (each ingest adds one to the count,
at most one destination, and at most one to suspicious_count). -/
theorem C8_stats_invariant (mc rm : ℕ) (inputs : List IngestInput) (pid : ℕ) (s : ProcStats)
    (h : alist_get ((runIngests (ConnectionHandler.init mc rm)
        ThreatDetector.init inputs).1).process_stats pid = some s) :
    s.unique_destinations.card ≤ s.connection_count ∧
      s.suspicious_count ≤ s.connection_count := by
  refine runIngests_statsInv inputs _ _ ?_ pid s h
  intro pid1 s1 hs1
  simp [ConnectionHandler.init, alist_get] at hs1

set_option maxHeartbeats 8000000 in
/-- Witness for C8: one concrete ingest of exRaw, with the resulting stats
record looked up and the theorem applied to it. -/
theorem C8_stats_invariant_witness :
    (alist_get ((runIngests (ConnectionHandler.init 10000 5) ThreatDetector.init
        [⟨exLookup, exRaw, 1, 12, 2, 0⟩]).1).process_stats 100 = some c8stats) ∧
      c8stats.unique_destinations.card ≤ c8stats.connection_count ∧
      c8stats.suspicious_count ≤ c8stats.connection_count := by
  have h : alist_get ((runIngests (ConnectionHandler.init 10000 5) ThreatDetector.init
      [⟨exLookup, exRaw, 1, 12, 2, 0⟩]).1).process_stats 100 = some c8stats := by
    norm_num [runIngests, process_connection_event, update_statistics,
      cleanup_old_connections, analyze_connection, detectorTrack, check_destination_rarity,
      check_connection_frequency, rule2_of_recent, maxDstCount, countDst, listMax,
      check_suspicious_ports, check_unusual_timing, check_first_time_process,
      check_geographic_anomalies, check_process_anomalies, check_connection_patterns,
      seqCountFinal, extract_features, ml_anomaly_detection, enrich_connection_event,
      format_ip, is_private_ip, alist_get, alist_set, alist_update, dequeAppend, histOf,
      exRaw, exLookup, ConnectionHandler.init, ThreatDetector.init, connId, c8stats,
      handler_safe_ports, detector_safe_ports, suspicious_ports, common_dns_servers,
      system_processes, suspicious_names, suspicious_args, pySortedAsc, insertByKeyAsc,
      show strToLower "bash" = "bash" from rfl,
      show strToLower "" = "" from rfl,
      show strToLower "/tmp/x" = "/tmp/x" from rfl,
      show substrB "nc" "bash" = false from rfl,
      show substrB "ncat" "bash" = false from rfl,
      show substrB "netcat" "bash" = false from rfl,
      show substrB "python" "bash" = false from rfl,
      show substrB "perl" "bash" = false from rfl,
      show substrB "bash" "bash" = true from rfl,
      show substrB "sh" "bash" = true from rfl,
      show substrB "-e" "" = false from rfl,
      show substrB "--execute" "" = false from rfl,
      show substrB "/bin/sh" "" = false from rfl,
      show substrB "/bin/bash" "" = false from rfl,
      show substrB "reverse" "" = false from rfl,
      show substrB "shell" "" = false from rfl,
      show substrB "/tmp/" "/tmp/x" = true from rfl,
      show strStartsWith "/." "/tmp/x" = false from rfl,
      show ("bash" : String) ≠ "systemd" from by decide,
      show ("bash" : String) ≠ "kernel" from by decide,
      show ("bash" : String) ≠ "init" from by decide,
      show ("bash" : String) ≠ "kthreadd" from by decide]
  exact ⟨h, C8_stats_invariant 10000 5 [⟨exLookup, exRaw, 1, 12, 2, 0⟩] 100 c8stats h⟩
